import Mathlib

/-!
Formal model of the bhvr-ws realtime voting service core.

The definitions below are a shallow embedding of the server code:
`server/src/data/store.ts` (class `DataStore`), `server/src/routes/polls.ts`
(the Hono route handlers), `server/src/utils/validation.ts`,
and the `WebSocketManager` class of `server/src/services/websocket.ts`.

Modelling conventions:
- JavaScript `Map<string, T>` becomes an association list `List (String × T)`
  with `mapGet` / `mapSet` / `mapDelete` (insertion order preserved, first
  occurrence replaced, exactly as a JS Map with unique keys behaves).
- JavaScript `Set<string>` becomes a `List String` inserted without duplicates.
- A JS `Set` of freshly allocated objects (the WebSocket connection sets)
  becomes a `List` to which every `add` of a fresh object appends; object
  identity is modelled by a serial `clientId` drawn from a counter.
- IEEE-754 doubles used only for the percentage field are modelled as `Rat`.
- Random id generation (`generateId`) is modelled by passing the generated
  ids in as parameters of the route functions.
- `Date` timestamps are modelled as `Nat`.
-/

/-- Shared `PollOption` record (`shared` package): option id, display text,
derived vote count and percentage. -/
structure PollOption where
  id : String
  text : String
  votes : Nat
  percentage : Rat
deriving DecidableEq, Repr

/-- Shared `Poll` record: metadata plus derived tallies.  The TS union type
`'active' | 'ended'` for `status` is kept as a `String`, as the code compares
it against the literal strings. -/
structure Poll where
  id : String
  title : String
  options : List PollOption
  status : String
  createdAt : Nat
  createdBy : String
  totalVotes : Nat
deriving DecidableEq, Repr

/-- Shared `Vote` record. -/
structure Vote where
  id : String
  pollId : String
  optionId : String
  voterId : String
  timestamp : Nat
deriving DecidableEq, Repr

/-- Lookup in an association-list model of a JS `Map` (first matching key). -/
def mapGet : List (String × α) → String → Option α
  | [], _ => none
  | (k0, v0) :: rest, k => if k0 = k then some v0 else mapGet rest k

/-- `Map.set`: replace the value at the first matching key in place, or append
a new entry when the key is absent. -/
def mapSet : List (String × α) → String → α → List (String × α)
  | [], k, v => [(k, v)]
  | (k0, v0) :: rest, k, v =>
    if k0 = k then (k, v) :: rest else (k0, v0) :: mapSet rest k v

/-- `Map.delete`: remove the entry at the first matching key. -/
def mapDelete : List (String × α) → String → List (String × α)
  | [], _ => []
  | (k0, v0) :: rest, k => if k0 = k then rest else (k0, v0) :: mapDelete rest k

/-- In-memory store of `server/src/data/store.ts`: `polls`, `votes` and
`pollVoters` maps (the dedup set per poll is a `Set<string>` of voter ids,
modelled as a duplicate-free list). -/
structure DataStore where
  polls : List (String × Poll)
  votes : List (String × List Vote)
  pollVoters : List (String × List String)
deriving DecidableEq, Repr

/-- The freshly constructed singleton store (all maps empty). -/
def DataStore.empty : DataStore := ⟨[], [], []⟩

/-- `DataStore.createPoll`: store the poll and initialise its vote log and
voter dedup set. -/
def DataStore.createPoll (s : DataStore) (poll : Poll) : DataStore :=
  { polls := mapSet s.polls poll.id poll
    votes := mapSet s.votes poll.id []
    pollVoters := mapSet s.pollVoters poll.id [] }

/-- `DataStore.getPoll`. -/
def DataStore.getPoll (s : DataStore) (id : String) : Option Poll :=
  mapGet s.polls id

/-- `DataStore.updatePoll`: merge `updates` over the stored poll
(`{ ...poll, ...updates }`); the merge is passed as a function. -/
def DataStore.updatePoll (s : DataStore) (id : String) (updates : Poll → Poll) :
    Option (Poll × DataStore) :=
  match mapGet s.polls id with
  | none => none
  | some poll =>
    let updatedPoll := updates poll
    some (updatedPoll, { s with polls := mapSet s.polls id updatedPoll })

/-- `DataStore.getVotes`: the vote log for a poll, `[]` when absent. -/
def DataStore.getVotes (s : DataStore) (pollId : String) : List Vote :=
  (mapGet s.votes pollId).getD []

/-- Voter dedup set for a poll, `[]` when absent (the `get(...) || new Set()`
idiom of the source). -/
def DataStore.votersOf (s : DataStore) (pollId : String) : List String :=
  (mapGet s.pollVoters pollId).getD []

/-- `DataStore.hasVoted`: membership in the dedup set. -/
def DataStore.hasVoted (s : DataStore) (pollId voterId : String) : Bool :=
  voterId ∈ DataStore.votersOf s pollId

/-- `DataStore.addVote`: returns `false` (store unchanged) when the poll is
unknown or the voter already voted; otherwise appends the vote to the log and
the voter to the dedup set. -/
def DataStore.addVote (s : DataStore) (vote : Vote) : Bool × DataStore :=
  match mapGet s.polls vote.pollId with
  | none => (false, s)
  | some _ =>
    let voters := DataStore.votersOf s vote.pollId
    if vote.voterId ∈ voters then (false, s)
    else
      (true,
        { s with
          votes := mapSet s.votes vote.pollId (DataStore.getVotes s vote.pollId ++ [vote])
          pollVoters := mapSet s.pollVoters vote.pollId (voters ++ [vote.voterId]) })

/-- `DataStore.aggregateResults`: per-option vote counts and percentages,
recomputed from the full vote log; percentage is
`(optionVotes / totalVotes) * 100` when `totalVotes > 0`, else `0`. -/
def DataStore.aggregateResults (s : DataStore) (pollId : String) : List PollOption :=
  match mapGet s.polls pollId with
  | none => []
  | some poll =>
    let votes := (mapGet s.votes pollId).getD []
    let totalVotes := votes.length
    poll.options.map fun option =>
      let optionVotes := (votes.filter fun v => v.optionId = option.id).length
      { option with
        votes := optionVotes
        percentage :=
          if totalVotes > 0 then ((optionVotes : Rat) / (totalVotes : Rat)) * 100 else 0 }

/-- `DataStore.getPollWithResults`: the stored poll with options replaced by
the aggregated options and `totalVotes` refreshed from the vote log. -/
def DataStore.getPollWithResults (s : DataStore) (pollId : String) : Option Poll :=
  match mapGet s.polls pollId with
  | none => none
  | some poll =>
    some { poll with
           options := DataStore.aggregateResults s pollId
           totalVotes := (DataStore.getVotes s pollId).length }

/-- Scanner for the regex `<[^>]*>` of `sanitizeHtml`: from a position right
after a `<`, skip non-`>` characters; return the remainder after the first
`>`, or `none` when the tag never closes (in which case the regex does not
match at that `<`). -/
def findCloseTag : List Char → Option (List Char)
  | [] => none
  | c :: rest => if c = '>' then some rest else findCloseTag rest

theorem findCloseTag_length_lt :
    ∀ (l rem : List Char), findCloseTag l = some rem → rem.length < l.length := by
  intro l
  induction l with
  | nil => intro rem h; simp [findCloseTag] at h
  | cons c rest ih =>
    intro rem h
    by_cases hc : c = '>'
    · simp [findCloseTag, hc] at h
      simp [← h, Nat.lt_succ_self]
    · simp [findCloseTag, hc] at h
      exact Nat.lt_succ_of_lt (ih rem h)

/-- Character-level model of `input.replace(/<[^>]*>/g, '')`: global,
left-to-right removal of every maximal `<...>` run; a `<` with no later `>`
is kept verbatim.  The fuel argument (initialised to the input length, which
`findCloseTag_length_lt` shows is never exhausted) makes the recursion
structural so that it evaluates inside the kernel. -/
def stripTagsFuel : Nat → List Char → List Char
  | 0, _ => []
  | _ + 1, [] => []
  | fuel + 1, c :: rest =>
    if c = '<' then
      match findCloseTag rest with
      | some rem => stripTagsFuel fuel rem
      | none => c :: stripTagsFuel fuel rest
    else c :: stripTagsFuel fuel rest

/-- Entry point of the tag-stripping scan. -/
def stripTags (l : List Char) : List Char := stripTagsFuel l.length l

/-- `sanitizeHtml` of `server/src/utils/validation.ts`. -/
def sanitizeHtml (input : String) : String :=
  String.mk (stripTags input.data)

/-- JavaScript `String.prototype.trim` over the character list: drop leading
and trailing whitespace.  (Lean core's `String.trim` is extensionally the
same on ASCII input but is defined by well-founded recursion on byte
positions, which the kernel cannot evaluate, so the model uses this
structural version.) -/
def jsTrim (s : String) : String :=
  String.mk (((s.data.dropWhile Char.isWhitespace).reverse.dropWhile
    Char.isWhitespace).reverse)

/-- Result type of the validators (`ValidationResult`). -/
structure ValidationResult where
  isValid : Bool
  errors : List String
deriving DecidableEq, Repr

/-- Title branch of `validatePollCreation`.  `!data.title` is truthiness of a
string, i.e. the empty string; the `typeof` check cannot fire in the typed
model.  Error message text is kept representative, not byte-exact. -/
def titleErrors (title : String) : List String :=
  if title = "" then ["タイトルは必須です"]
  else if (jsTrim title).length = 0 then ["タイトルは必須です"]
  else if title.length > 200 then ["タイトルは200文字以内で入力してください"]
  else []

/-- Per-option loop of `validatePollCreation`: each option contributes at most
one error (empty after trim, or longer than 100).  The source interpolates the
option index into the message; the index is dropped here as the message text
is never inspected. -/
def optionItemErrors (options : List String) : List String :=
  options.filterMap fun option =>
    if (jsTrim option).length = 0 then some ("選択肢は空にできません")
    else if option.length > 100 then some ("選択肢は100文字以内で入力してください")
    else none

/-- Options branch of `validatePollCreation`.  `!data.options` is truthiness
of an array, which never fires (even `[]` is truthy in JS); an empty array
falls into the `length < 2` branch exactly as in the source. -/
def optionsErrors (options : List String) : List String :=
  if options.length < 2 then ["選択肢は最低2個必要です"]
  else if options.length > 10 then ["選択肢は最大10個までです"]
  else optionItemErrors options

/-- `validatePollCreation` for a request body `{ title, options }`.  The
request-body-missing and `typeof` branches cannot fire in the typed model. -/
def validatePollCreation (title : String) (options : List String) : ValidationResult :=
  let errors := titleErrors title ++ optionsErrors options
  ⟨errors.isEmpty, errors⟩

/-- `validateVote` for a request body `{ optionId, voterId }`: both fields
must be truthy (non-empty) strings. -/
def validateVote (optionId voterId : String) : ValidationResult :=
  let errors :=
    (if optionId = "" then ["選択肢IDは必須です"] else []) ++
    (if voterId = "" then ["投票者IDは必須です"] else [])
  ⟨errors.isEmpty, errors⟩

/-- `sanitizePollData`: trim then strip tags from the title and every
option. -/
def sanitizePollData (title : String) (options : List String) : String × List String :=
  (sanitizeHtml (jsTrim title), options.map fun option => sanitizeHtml (jsTrim option))

/-- Notification payloads of spec §4.4 (`WebSocketMessage` kinds that the
Event Publisher would emit).  The route handlers in `routes/polls.ts` have
WebSocket broadcasting disabled (the `wsManager` import and the broadcast
calls are commented out, replaced by `console.log`), so the notification
component they produce is always empty. -/
inductive Notification where
  | updated (pollId : String) (poll : Poll)
  | ended (pollId : String) (poll : Poll)
deriving DecidableEq, Repr

/-- Outcome of `POST /api/polls/:id/vote`, by the error kind of the response
(`createErrorResponse` code) or the success payload. -/
inductive VoteResult where
  | validationError
  | notFound
  | pollEnded
  | invalidOption
  | alreadyVoted
  | ok (votedOptionId : String) (poll : Poll)
deriving DecidableEq, Repr

/-- Whether a vote outcome is the success response. -/
def VoteResult.isOk : VoteResult → Bool
  | .ok _ _ => true
  | _ => false

/-- Handler of `POST /api/polls/:id/vote` (`polls.post('/:id/vote')`).  The
generated vote id and the timestamp are passed in; the returned triple is
(response, store after the call, notifications sent).  The handler logs to
the console instead of broadcasting, so the notification list is `[]` on
every path. -/
def castVoteRoute (s : DataStore) (pollId optionId voterId voteId : String)
    (now : Nat) : VoteResult × DataStore × List Notification :=
  if (validateVote optionId voterId).isValid = false then (.validationError, s, [])
  else
    match DataStore.getPoll s pollId with
    | none => (.notFound, s, [])
    | some poll =>
      if poll.status ≠ "active" then (.pollEnded, s, [])
      else
        match poll.options.find? (fun opt => opt.id = optionId) with
        | none => (.invalidOption, s, [])
        | some _ =>
          if DataStore.hasVoted s pollId voterId then (.alreadyVoted, s, [])
          else
            let vote : Vote := ⟨voteId, pollId, optionId, voterId, now⟩
            let result := DataStore.addVote s vote
            if result.1 = false then (.alreadyVoted, s, [])
            else
              match DataStore.getPollWithResults result.2 pollId with
              | some updatedPoll => (.ok optionId updatedPoll, result.2, [])
              | none => (.ok optionId poll, result.2, [])

/-- Outcome of `POST /api/polls/:id/end`. -/
inductive EndResult where
  | notFound
  | unauthorized
  | internalError
  | ok (poll : Poll)
deriving DecidableEq, Repr

/-- Whether an end-poll outcome is the success response. -/
def EndResult.isOk : EndResult → Bool
  | .ok _ => true
  | _ => false

/-- The guard `body.createdBy && poll.createdBy !== body.createdBy` of the
end-poll handler: the creator check runs only when the request supplies a
truthy (present and non-empty) `createdBy`. -/
def endAuthFails (poll : Poll) (reqCreatedBy : Option String) : Bool :=
  match reqCreatedBy with
  | none => false
  | some r => if r = "" then false else if poll.createdBy = r then false else true

/-- Truthiness of the optional `createdBy` field of the end-poll request
body. -/
def truthyCreatedBy : Option String → Bool
  | none => false
  | some r => r ≠ ""

/-- Handler of `POST /api/polls/:id/end` (`polls.post('/:id/end')`).  As with
the vote handler, broadcasting is disabled so no notification is produced.
The `none` branch after `updatePoll` mirrors the handler's internal-error
response; the `getD` mirrors the non-null assertion `finalPoll!`. -/
def endPollRoute (s : DataStore) (pollId : String) (reqCreatedBy : Option String) :
    EndResult × DataStore × List Notification :=
  match DataStore.getPoll s pollId with
  | none => (.notFound, s, [])
  | some poll =>
    if endAuthFails poll reqCreatedBy then (.unauthorized, s, [])
    else
      match DataStore.updatePoll s pollId (fun p => { p with status := "ended" }) with
      | none => (.internalError, s, [])
      | some result =>
        (.ok ((DataStore.getPollWithResults result.2 pollId).getD result.1), result.2, [])

/-- Outcome of `POST /api/polls` (create poll). -/
inductive CreateResult where
  | validationError (errors : List String)
  | ok (poll : Poll)
deriving DecidableEq, Repr

/-- Whether a create-poll outcome is the 400 validation response. -/
def CreateResult.failed : CreateResult → Bool
  | .validationError _ => true
  | .ok _ => false

/-- Handler of `POST /api/polls` (`polls.post('/')`).  The generated poll id,
the option-id generator and the timestamp are passed in; `createdBy` is the
hard-coded string `'anonymous'` of the source. -/
def createPollRoute (s : DataStore) (title : String) (options : List String)
    (pollId : String) (optionIdGen : Nat → String) (now : Nat) :
    CreateResult × DataStore :=
  let validation := validatePollCreation title options
  if validation.isValid = false then (.validationError validation.errors, s)
  else
    let sanitized := sanitizePollData title options
    let pollOptions : List PollOption :=
      sanitized.2.enum.map fun p => ⟨optionIdGen p.1, p.2, 0, 0⟩
    let poll : Poll :=
      { id := pollId
        title := sanitized.1
        options := pollOptions
        status := "active"
        createdAt := now
        createdBy := "anonymous"
        totalVotes := 0 }
    (.ok poll, DataStore.createPoll s poll)

/-- A registered WebSocket connection (`WebSocketConnection`): the underlying
socket is identified by a numeric handle `ws` (JS object identity), and each
`addConnection` call allocates a fresh `clientId`. -/
structure WSConnection where
  ws : Nat
  pollId : String
  clientId : Nat
deriving DecidableEq, Repr

/-- `WebSocketManager`: per-poll `Set<WebSocketConnection>` of freshly
allocated connection objects, modelled as lists in insertion order, plus the
counter backing `generateClientId`. -/
structure WSManager where
  connections : List (String × List WSConnection)
  nextClientId : Nat
deriving DecidableEq, Repr

/-- A freshly constructed manager. -/
def WSManager.empty : WSManager := ⟨[], 0⟩

/-- `WebSocketManager.addConnection`: build a new connection object with a
fresh client id and add it to the poll's set (creating the set first when
absent).  Adding a fresh object to a JS `Set` always inserts, so the list
grows on every call. -/
def addConnection (m : WSManager) (pollId : String) (ws : Nat) : WSManager :=
  let connection : WSConnection := ⟨ws, pollId, m.nextClientId⟩
  let existing := (mapGet m.connections pollId).getD []
  { connections := mapSet m.connections pollId (existing ++ [connection])
    nextClientId := m.nextClientId + 1 }

/-- First-match removal inside `WebSocketManager.removeConnection` (the loop
deletes the first connection whose `ws` matches, then breaks). -/
def removeFirstWs : List WSConnection → Nat → List WSConnection
  | [], _ => []
  | c :: rest, ws => if c.ws = ws then rest else c :: removeFirstWs rest ws

/-- `WebSocketManager.removeConnection`: drop the first matching connection
and garbage-collect the poll's entry when its set becomes empty. -/
def removeConnection (m : WSManager) (pollId : String) (ws : Nat) : WSManager :=
  match mapGet m.connections pollId with
  | none => m
  | some conns =>
    let remaining := removeFirstWs conns ws
    if remaining.isEmpty then
      { m with connections := mapDelete m.connections pollId }
    else
      { m with connections := mapSet m.connections pollId remaining }

/-- `WebSocketManager.getConnectionCount`: `connections.get(pollId)?.size || 0`. -/
def getConnectionCount (m : WSManager) (pollId : String) : Nat :=
  ((mapGet m.connections pollId).map List.length).getD 0

/-- `WebSocketManager.broadcastToPoll`: iterate over the poll's connections;
`ws.send` either succeeds (modelled by the oracle `sendOk`) or throws, in
which case the connection is deleted from the set and the loop continues with
the next connection.  The net effect of the loop is: survivors are exactly
the connections whose send succeeded, each of which received the message. -/
def broadcastToPoll (m : WSManager) (sendOk : Nat → Bool) (pollId : String)
    (message : α) : WSManager × List (Nat × α) :=
  match mapGet m.connections pollId with
  | none => (m, [])
  | some conns =>
    let survivors := conns.filter fun c => sendOk c.ws
    ({ m with connections := mapSet m.connections pollId survivors },
      survivors.map fun c => (c.ws, message))

/-! ### Association-list lemmas -/

theorem mapGet_mapSet_self (m : List (String × α)) (k : String) (v : α) :
    mapGet (mapSet m k v) k = some v := by
  induction m with
  | nil => simp [mapSet, mapGet]
  | cons p rest ih =>
    by_cases h : p.1 = k
    · simp [mapSet, mapGet, h]
    · simp [mapSet, mapGet, h, ih]

theorem mapGet_mapSet_ne (m : List (String × α)) (k k2 : String) (v : α)
    (h : k2 ≠ k) : mapGet (mapSet m k v) k2 = mapGet m k2 := by
  have hne : k ≠ k2 := fun he => h he.symm
  induction m with
  | nil => simp [mapSet, mapGet, hne]
  | cons p rest ih =>
    by_cases hp : p.1 = k
    · simp [mapSet, mapGet, hp, hne]
    · by_cases hp2 : p.1 = k2 <;> simp [mapSet, mapGet, hp, hp2, h, ih]

theorem mem_of_mapGet (m : List (String × α)) (k : String) (v : α)
    (h : mapGet m k = some v) : (k, v) ∈ m := by
  induction m with
  | nil => simp [mapGet] at h
  | cons p rest ih =>
    by_cases hp : p.1 = k
    · simp [mapGet, hp] at h
      rw [← hp, ← h]
      exact List.mem_cons_self _ _
    · simp [mapGet, hp] at h
      exact List.mem_cons_of_mem _ (ih h)

theorem mapGet_of_mem_of_nodup (m : List (String × α)) (k : String) (v : α)
    (hnd : (m.map Prod.fst).Nodup) (h : (k, v) ∈ m) : mapGet m k = some v := by
  induction m with
  | nil => simp at h
  | cons p rest ih =>
    rw [List.map_cons, List.nodup_cons] at hnd
    rcases List.mem_cons.mp h with h1 | h2
    · rw [← h1]
      simp [mapGet]
    · have hk : p.1 ≠ k := by
        intro he
        apply hnd.1
        rw [he]
        exact List.mem_map.mpr ⟨(k, v), h2, rfl⟩
      simp [mapGet, hk]
      exact ih hnd.2 h2

/-! ### Counting lemmas for the aggregation claims -/

theorem filter_length_le_one_of_nodup_map {α β : Type} [DecidableEq β]
    (l : List α) (f : α → β) (b : β) (hnd : (l.map f).Nodup) :
    (l.filter fun a => f a = b).length ≤ 1 := by
  induction l with
  | nil => simp
  | cons a rest ih =>
    simp at hnd
    by_cases hb : f a = b
    · have hempty : (rest.filter fun x => f x = b) = [] := by
        apply List.filter_eq_nil_iff.mpr
        intro x hx
        simp
        intro hfx
        exact hnd.1 x hx (by rw [hfx, hb])
      simp [List.filter_cons, hb, hempty]
    · simp [List.filter_cons, hb]
      exact ih hnd.2

theorem sum_map_add_distrib {α : Type} (l : List α) (f g : α → Nat) :
    (l.map fun a => f a + g a).sum = (l.map f).sum + (l.map g).sum := by
  induction l with
  | nil => simp
  | cons a rest ih => simp [ih]; omega

theorem sum_indicator {β : Type} [DecidableEq β] (ids : List β) (k : β)
    (hnd : ids.Nodup) (hk : k ∈ ids) :
    (ids.map fun i => if k = i then 1 else 0).sum = 1 := by
  induction ids with
  | nil => simp at hk
  | cons i rest ih =>
    rw [List.nodup_cons] at hnd
    rcases List.mem_cons.mp hk with h1 | h2
    · subst h1
      have hzero : (rest.map fun j => if k = j then 1 else 0).sum = 0 := by
        apply List.sum_eq_zero
        intro x hx
        rcases List.mem_map.mp hx with ⟨j, hj, hxe⟩
        have hkj : k ≠ j := fun he => hnd.1 (he ▸ hj)
        rw [← hxe]
        simp [hkj]
      simp [hzero]
    · have hki : k ≠ i := fun he => hnd.1 (he ▸ h2)
      simp [hki, ih hnd.2 h2]

theorem sum_filter_counts {α β : Type} [DecidableEq β] (ids : List β) (key : α → β) :
    ∀ (votes : List α), ids.Nodup → (∀ v ∈ votes, key v ∈ ids) →
      (ids.map fun i => (votes.filter fun v => key v = i).length).sum = votes.length := by
  intro votes
  induction votes with
  | nil => intro _ _; simp
  | cons v vs ih =>
    intro hnd hall
    have hrw : (ids.map fun i => ((v :: vs).filter fun x => key x = i).length)
        = ids.map fun i =>
            (if key v = i then 1 else 0) + ((vs.filter fun x => key x = i).length) := by
      apply List.map_congr_left
      intro i _
      by_cases h : key v = i <;> simp [List.filter_cons, h] <;> omega
    rw [hrw, sum_map_add_distrib,
      sum_indicator ids (key v) hnd (hall v (List.mem_cons_self v vs)),
      ih hnd (fun x hx => hall x (List.mem_cons_of_mem v hx))]
    simp [List.length_cons]
    omega


/-! ### Store invariant

The invariant maintained by the store for every poll entry: option ids are
unique within the poll, every logged vote references one of the poll's
options and carries the right poll id, no voter appears twice in a poll's
vote log, and every logged voter is recorded in the dedup set.  Together with
uniqueness of the poll map keys this is preserved by every route handler. -/

/-- Per-poll part of the invariant. -/
def wfPollEntry (s : DataStore) (pid : String) (poll : Poll) : Prop :=
  (poll.options.map PollOption.id).Nodup
  ∧ (∀ v ∈ DataStore.getVotes s pid, v.optionId ∈ poll.options.map PollOption.id)
  ∧ (∀ v ∈ DataStore.getVotes s pid, v.pollId = pid)
  ∧ ((DataStore.getVotes s pid).map Vote.voterId).Nodup
  ∧ (∀ v ∈ DataStore.getVotes s pid, v.voterId ∈ DataStore.votersOf s pid)

/-- Store invariant: unique poll keys, and every poll entry well-formed. -/
def wfState (s : DataStore) : Prop :=
  (s.polls.map Prod.fst).Nodup ∧ ∀ p ∈ s.polls, wfPollEntry s p.1 p.2

instance (s : DataStore) (pid : String) (poll : Poll) :
    Decidable (wfPollEntry s pid poll) := by
  unfold wfPollEntry
  infer_instance

instance (s : DataStore) : Decidable (wfState s) := by
  unfold wfState
  infer_instance

/-! ### Demonstration states used by the concrete theorems -/

/-- A two-option poll as `createPoll` would build it. -/
def demoPoll : Poll :=
  { id := "p1"
    title := "Lunch"
    options := [⟨"o1", "Sushi", 0, 0⟩, ⟨"o2", "Ramen", 0, 0⟩]
    status := "active"
    createdAt := 0
    createdBy := "anonymous"
    totalVotes := 0 }

/-- Store holding `demoPoll` and nothing else. -/
def demoStore : DataStore := DataStore.createPoll DataStore.empty demoPoll

/-- `demoStore` after voter `v1` successfully votes for option `o1`. -/
def demoVoted : DataStore :=
  (castVoteRoute demoStore ("p1") ("o1") ("v1") ("vote-1") 1).2.1

/-- The aggregated view of `demoVoted`'s poll. -/
def demoResultsPoll : Poll :=
  { id := "p1"
    title := "Lunch"
    options := [⟨"o1", "Sushi", 1, 100⟩, ⟨"o2", "Ramen", 0, 0⟩]
    status := "active"
    createdAt := 0
    createdBy := "anonymous"
    totalVotes := 1 }

/-- `demoStore` after the creator ends the poll. -/
def demoEnded : DataStore := (endPollRoute demoStore ("p1") none).2.1

/-- The stored poll of `demoEnded`. -/
def demoEndedPoll : Poll := { demoPoll with status := "ended" }

/-- A manager with one connection (socket handle 7) subscribed to `p1`. -/
def demoManager : WSManager := addConnection WSManager.empty ("p1") 7

/-- A manager with two connections (socket handles 7 and 8) on `p1`. -/
def demoManager2 : WSManager :=
  addConnection (addConnection WSManager.empty ("p1") 7) ("p1") 8

/-! ### Claim theorems -/

/-- C1: a `castVote` request by a voter that has already voted on the poll
(i.e. is in the dedup set) fails with the duplicate-vote error and leaves the
store — vote log, dedup set, and hence all tallies — unchanged; and in a
well-formed store at most one accepted vote per (poll, voter) pair exists in
the vote log.  The hypotheses place the request at the dedup check: the poll
exists, is active, the chosen option belongs to it, and the request-body
fields are non-empty (pre-validated inputs, spec §6). -/
theorem castVote_duplicate_rejected (s : DataStore) (pid oid vid voteId : String)
    (now : Nat) (poll : Poll) (hwf : wfState s)
    (hoid : oid ≠ "") (hvid : vid ≠ "")
    (hpoll : DataStore.getPoll s pid = some poll)
    (hactive : poll.status = "active")
    (hopt : (poll.options.find? fun opt => opt.id = oid).isSome = true)
    (hvoted : DataStore.hasVoted s pid vid = true) :
    castVoteRoute s pid oid vid voteId now = (VoteResult.alreadyVoted, s, [])
    ∧ ((DataStore.getVotes s pid).filter fun v => v.voterId = vid).length ≤ 1 := by
  constructor
  · have hval : (validateVote oid vid).isValid = true := by
      unfold validateVote
      simp [hoid, hvid]
    rcases Option.isSome_iff_exists.mp hopt with ⟨opt, hfind⟩
    unfold castVoteRoute
    simp [hval, hpoll, hactive, hfind, hvoted]
  · have hmem : (pid, poll) ∈ s.polls := mem_of_mapGet _ _ _ hpoll
    have hwfe := hwf.2 (pid, poll) hmem
    exact filter_length_le_one_of_nodup_map _ Vote.voterId vid hwfe.2.2.2.1

/-- C1 witness: in the demo store where `v1` already voted, a second vote by
`v1` is rejected with the duplicate error, the store is unchanged, and `v1`
has exactly one logged vote. -/
theorem castVote_duplicate_rejected_witness :
    castVoteRoute demoVoted ("p1") ("o2") ("v1") ("vote-2") 2
      = (VoteResult.alreadyVoted, demoVoted, [])
    ∧ ((DataStore.getVotes demoVoted ("p1")).filter fun v => v.voterId = "v1").length ≤ 1 :=
  castVote_duplicate_rejected demoVoted ("p1") ("o2") ("v1") ("vote-2") 2 demoPoll
    (by decide) (by decide) (by decide) (by decide) (by decide) (by decide) (by decide)

/-- C7: a `castVote` request against a poll whose lifecycle is ended fails
with the poll-ended error and leaves the store unchanged (no vote is
appended), for pre-validated (non-empty) request fields. -/
theorem castVote_ended_poll_rejected (s : DataStore) (pid oid vid voteId : String)
    (now : Nat) (poll : Poll)
    (hoid : oid ≠ "") (hvid : vid ≠ "")
    (hpoll : DataStore.getPoll s pid = some poll)
    (hended : poll.status = "ended") :
    castVoteRoute s pid oid vid voteId now = (VoteResult.pollEnded, s, []) := by
  have hval : (validateVote oid vid).isValid = true := by
    unfold validateVote
    simp [hoid, hvid]
  unfold castVoteRoute
  simp [hval, hpoll, hended]

/-- C7 witness: voting on the ended demo poll fails with the poll-ended
error and changes nothing. -/
theorem castVote_ended_poll_rejected_witness :
    castVoteRoute demoEnded ("p1") ("o1") ("v3") ("vote-3") 3
      = (VoteResult.pollEnded, demoEnded, []) :=
  castVote_ended_poll_rejected demoEnded ("p1") ("o1") ("v3") ("vote-3") 3 demoEndedPoll
    (by decide) (by decide) (by decide) (by decide)

/-- C3 counterexample: the claim fails as stated.  The requester identifier
`""` differs from the poll's creator `"anonymous"`, yet `endPoll` succeeds
and flips the poll to ended, because the handler only runs the creator check
for a truthy `createdBy`. -/
theorem endPoll_blank_requester_ends_poll :
    ("" : String) ≠ demoPoll.createdBy
    ∧ (endPollRoute demoStore ("p1") (some (""))).1.isOk = true
    ∧ (DataStore.getPoll (endPollRoute demoStore ("p1") (some (""))).2.1 ("p1")).map
        Poll.status = some ("ended") := by
  decide

/-- C3 (amended): an `endPoll` request that supplies a non-empty requester
identifier differing from the poll's creator fails with the unauthorized
error and leaves the store — in particular the poll's lifecycle state and
every other field — unchanged. -/
theorem endPoll_nonempty_mismatch_unauthorized (s : DataStore) (pid req : String)
    (poll : Poll) (hpoll : DataStore.getPoll s pid = some poll)
    (hreq : req ≠ "") (hne : poll.createdBy ≠ req) :
    endPollRoute s pid (some req) = (EndResult.unauthorized, s, []) := by
  unfold endPollRoute
  simp [hpoll, endAuthFails, hreq, hne]

/-- C3 witness: ending the demo poll as `eve` fails with the unauthorized
error and leaves the store unchanged. -/
theorem endPoll_nonempty_mismatch_unauthorized_witness :
    endPollRoute demoStore ("p1") (some ("eve")) = (EndResult.unauthorized, demoStore, []) :=
  endPoll_nonempty_mismatch_unauthorized demoStore ("p1") ("eve") demoPoll
    (by decide) (by decide) (by decide)

/-- C10: an `endPoll` request whose body omits `createdBy` or supplies a
falsy (empty) value succeeds and transitions the poll to ended, for any
existing poll and regardless of who created it. -/
theorem endPoll_falsy_requester_succeeds (s : DataStore) (pid : String)
    (req : Option String) (poll : Poll)
    (hpoll : DataStore.getPoll s pid = some poll)
    (hfalsy : truthyCreatedBy req = false) :
    (endPollRoute s pid req).1.isOk = true
    ∧ (DataStore.getPoll (endPollRoute s pid req).2.1 pid).map Poll.status
        = some ("ended") := by
  have hauth : endAuthFails poll req = false := by
    cases req with
    | none => rfl
    | some r =>
      have hr : r = "" := by
        by_contra hc
        simp [truthyCreatedBy, hc] at hfalsy
      simp [endAuthFails, hr]
  have hget : mapGet s.polls pid = some poll := hpoll
  unfold endPollRoute DataStore.updatePoll
  simp [DataStore.getPoll, hget, hauth, EndResult.isOk, mapGet_mapSet_self]

/-- C10 witness: ending the demo poll with a blank `createdBy` succeeds and
the stored poll is ended, even though the poll's creator is `"anonymous"`. -/
theorem endPoll_falsy_requester_succeeds_witness :
    (endPollRoute demoStore ("p1") (some (""))).1.isOk = true
    ∧ (DataStore.getPoll (endPollRoute demoStore ("p1") (some (""))).2.1 ("p1")).map
        Poll.status = some ("ended") :=
  endPoll_falsy_requester_succeeds demoStore ("p1") (some ("")) demoPoll
    (by decide) (by decide)

/-- C5: in every aggregated view (`getPollWithResults`, which backs the get,
vote-response and results endpoints), the per-option vote counts sum to the
reported `totalVotes`, for any well-formed store. -/
theorem sum_option_votes_eq_totalVotes (s : DataStore) (pid : String) (p : Poll)
    (hwf : wfState s) (h : DataStore.getPollWithResults s pid = some p) :
    (p.options.map PollOption.votes).sum = p.totalVotes := by
  unfold DataStore.getPollWithResults at h
  cases hq : mapGet s.polls pid with
  | none => rw [hq] at h; simp at h
  | some poll =>
    rw [hq] at h
    simp only [Option.some.injEq] at h
    subst h
    have hwfe := hwf.2 (pid, poll) (mem_of_mapGet _ _ _ hq)
    have hkey := sum_filter_counts (poll.options.map PollOption.id) Vote.optionId
      (DataStore.getVotes s pid) hwfe.1 hwfe.2.1
    rw [List.map_map] at hkey
    have hagg : DataStore.aggregateResults s pid
        = poll.options.map fun option =>
            { option with
              votes := (((mapGet s.votes pid).getD []).filter
                fun v => v.optionId = option.id).length
              percentage :=
                if ((mapGet s.votes pid).getD []).length > 0
                then (((((mapGet s.votes pid).getD []).filter
                    fun v => v.optionId = option.id).length : Rat)
                  / ((((mapGet s.votes pid).getD []).length : Rat))) * 100
                else 0 } := by
      unfold DataStore.aggregateResults
      rw [hq]
    simp only [hagg, List.map_map]
    exact hkey

/-- C5 witness: in the demo store with one vote, the counts (1 and 0) sum to
the reported total of 1. -/
theorem sum_option_votes_eq_totalVotes_witness :
    (demoResultsPoll.options.map PollOption.votes).sum = demoResultsPoll.totalVotes :=
  sum_option_votes_eq_totalVotes demoVoted ("p1") demoResultsPoll (by decide)
    (by
    simp [demoVoted, demoStore, demoPoll, demoResultsPoll, DataStore.getPollWithResults,
      DataStore.aggregateResults, DataStore.getVotes, DataStore.createPoll, DataStore.empty,
      castVoteRoute, validateVote, DataStore.getPoll, DataStore.hasVoted, DataStore.votersOf,
      DataStore.addVote, mapGet, mapSet])

/-- C6: in every aggregated view, each option's percentage is exactly its
count divided by `totalVotes` times 100 when `totalVotes > 0` and exactly 0
otherwise (exact rational arithmetic in place of IEEE doubles); the formula
is applied per option with no renormalization. -/
theorem percentage_eq_count_div_total (s : DataStore) (pid : String) (p : Poll)
    (h : DataStore.getPollWithResults s pid = some p) :
    ∀ o ∈ p.options,
      o.percentage
        = if p.totalVotes > 0
          then ((o.votes : Rat) / (p.totalVotes : Rat)) * 100
          else 0 := by
  unfold DataStore.getPollWithResults at h
  cases hq : mapGet s.polls pid with
  | none => rw [hq] at h; simp at h
  | some poll =>
    rw [hq] at h
    simp only [Option.some.injEq] at h
    subst h
    intro o ho
    have hagg : DataStore.aggregateResults s pid
        = poll.options.map fun option =>
            { option with
              votes := (((mapGet s.votes pid).getD []).filter
                fun v => v.optionId = option.id).length
              percentage :=
                if ((mapGet s.votes pid).getD []).length > 0
                then (((((mapGet s.votes pid).getD []).filter
                    fun v => v.optionId = option.id).length : Rat)
                  / ((((mapGet s.votes pid).getD []).length : Rat))) * 100
                else 0 } := by
      unfold DataStore.aggregateResults
      rw [hq]
    simp only [hagg] at ho
    rcases List.mem_map.mp ho with ⟨orig, horig, rfl⟩
    rfl

/-- C6 witness: in the demo view with one vote, the winning option's stored
percentage (100) equals 1 / 1 * 100. -/
theorem percentage_eq_count_div_total_witness :
    (PollOption.mk ("o1") ("Sushi") 1 100).percentage
      = if demoResultsPoll.totalVotes > 0
        then (((PollOption.mk ("o1") ("Sushi") 1 100).votes : Rat)
          / (demoResultsPoll.totalVotes : Rat)) * 100
        else 0 :=
  percentage_eq_count_div_total demoVoted ("p1") demoResultsPoll
    (by
    simp [demoVoted, demoStore, demoPoll, demoResultsPoll, DataStore.getPollWithResults,
      DataStore.aggregateResults, DataStore.getVotes, DataStore.createPoll, DataStore.empty,
      castVoteRoute, validateVote, DataStore.getPoll, DataStore.hasVoted, DataStore.votersOf,
      DataStore.addVote, mapGet, mapSet])
    (PollOption.mk ("o1") ("Sushi") 1 100) (by decide)

/-- C4 counterexample: `addConnection` is not idempotent and does not drop a
previous registration.  Re-adding socket 7 to `p1` raises the registered
count from 1 to 2, and adding socket 7 (registered to `p1`) to `p2` leaves
its `p1` registration in place. -/
theorem addConnection_not_idempotent :
    getConnectionCount (addConnection WSManager.empty ("p1") 7) ("p1") = 1
    ∧ getConnectionCount
        (addConnection (addConnection WSManager.empty ("p1") 7) ("p1") 7) ("p1") = 2
    ∧ getConnectionCount
        (addConnection (addConnection WSManager.empty ("p1") 7) ("p2") 7) ("p1") = 1 := by
  decide

/-- C4 (amended): every `addConnection` call registers a fresh connection
entry — the registered count for that poll always grows by exactly one, even
for a socket already registered there — and the registrations of every other
poll are untouched (in particular a previous registration of the same socket
under another poll is not removed). -/
theorem addConnection_always_appends (m : WSManager) (pid : String) (ws : Nat) :
    getConnectionCount (addConnection m pid ws) pid = getConnectionCount m pid + 1
    ∧ ∀ pid2, pid2 ≠ pid →
        mapGet (addConnection m pid ws).connections pid2 = mapGet m.connections pid2 := by
  constructor
  · cases hq : mapGet m.connections pid <;>
      simp [addConnection, getConnectionCount, hq, mapGet_mapSet_self]
  · intro pid2 hne
    exact mapGet_mapSet_ne m.connections pid pid2 _ hne

/-- C4 amended-claim witness: with socket 7 already on `p1`, adding socket 9
to `p1` raises the count by one and leaves `p2` untouched. -/
theorem addConnection_always_appends_witness :
    getConnectionCount (addConnection demoManager ("p1") 9) ("p1")
      = getConnectionCount demoManager ("p1") + 1
    ∧ mapGet (addConnection demoManager ("p1") 9).connections ("p2")
      = mapGet demoManager.connections ("p2") :=
  ⟨(addConnection_always_appends demoManager ("p1") 9).1,
   (addConnection_always_appends demoManager ("p1") 9).2 ("p2") (by decide)⟩

/-- C8: delivery is best-effort per connection.  For an arbitrary send
outcome per socket (`sendOk`), every registered connection whose send
succeeds receives the message and stays registered — regardless of how many
other connections fail — and every connection whose send fails is removed
from the registry by the broadcast. -/
theorem broadcast_best_effort_delivery {α : Type} (m : WSManager) (sendOk : Nat → Bool)
    (pid : String) (message : α) (conns : List WSConnection) (c : WSConnection)
    (hconns : mapGet m.connections pid = some conns) (hc : c ∈ conns) :
    (sendOk c.ws = true →
      (c.ws, message) ∈ (broadcastToPoll m sendOk pid message).2
      ∧ c ∈ (mapGet (broadcastToPoll m sendOk pid message).1.connections pid).getD [])
    ∧ (sendOk c.ws = false →
      c ∉ (mapGet (broadcastToPoll m sendOk pid message).1.connections pid).getD []) := by
  unfold broadcastToPoll
  rw [hconns]
  simp only [mapGet_mapSet_self, Option.getD_some]
  constructor
  · intro hok
    constructor
    · exact List.mem_map_of_mem _ (List.mem_filter.mpr ⟨hc, by simp [hok]⟩)
    · exact List.mem_filter.mpr ⟨hc, by simp [hok]⟩
  · intro hfail hmem
    have := (List.mem_filter.mp hmem).2
    rw [hfail] at this
    exact Bool.false_ne_true this

/-- C8 witness: with sockets 7 and 8 on `p1` and sends to 8 failing, socket 7
still receives the message and socket 8 is removed from the registry. -/
theorem broadcast_best_effort_delivery_witness :
    ((7 : Nat), ("update" : String)) ∈
      (broadcastToPoll demoManager2 (fun ws => ws == 7) ("p1") ("update" : String)).2
    ∧ (⟨8, "p1", 1⟩ : WSConnection) ∉
      (mapGet (broadcastToPoll demoManager2 (fun ws => ws == 7) ("p1")
        ("update" : String)).1.connections ("p1")).getD [] :=
  ⟨((broadcast_best_effort_delivery demoManager2 (fun ws => ws == 7) ("p1")
      ("update" : String) [⟨7, "p1", 0⟩, ⟨8, "p1", 1⟩] ⟨7, "p1", 0⟩
      (by decide) (by decide)).1 (by decide)).1,
   (broadcast_best_effort_delivery demoManager2 (fun ws => ws == 7) ("p1")
      ("update" : String) [⟨7, "p1", 0⟩, ⟨8, "p1", 1⟩] ⟨8, "p1", 1⟩
      (by decide) (by decide)).2 (by decide)⟩

/-- C2 (code evaluated at the failing input): with a connection registered
for `p1`, a successful `castVote` on `p1` produces an empty notification
list, and so does a successful `endPoll` — no "poll updated" or "poll ended"
notification reaches the Subscription Registry, because the route handlers
have the broadcast calls commented out. -/
theorem castVote_success_emits_no_notification :
    getConnectionCount demoManager ("p1") = 1
    ∧ (castVoteRoute demoStore ("p1") ("o1") ("v1") ("vote-1") 1).1.isOk = true
    ∧ (castVoteRoute demoStore ("p1") ("o1") ("v1") ("vote-1") 1).2.2
        = ([] : List Notification)
    ∧ (endPollRoute demoStore ("p1") (some ("anonymous"))).1.isOk = true
    ∧ (endPollRoute demoStore ("p1") (some ("anonymous"))).2.2
        = ([] : List Notification) := by
  refine ⟨by decide, ?_, ?_, by decide, by decide⟩
  · simp [castVoteRoute, demoStore, demoPoll, validateVote, DataStore.getPoll,
      DataStore.createPoll, DataStore.empty, DataStore.hasVoted, DataStore.votersOf,
      DataStore.addVote, DataStore.getPollWithResults, DataStore.aggregateResults,
      DataStore.getVotes, mapGet, mapSet, VoteResult.isOk]
  · simp [castVoteRoute, demoStore, demoPoll, validateVote, DataStore.getPoll,
      DataStore.createPoll, DataStore.empty, DataStore.hasVoted, DataStore.votersOf,
      DataStore.addVote, DataStore.getPollWithResults, DataStore.aggregateResults,
      DataStore.getVotes, mapGet, mapSet]

/-- Title condition under which `validatePollCreation` rejects: empty,
whitespace-only, or longer than 200. -/
def titleInvalid (title : String) : Prop :=
  title = "" ∨ (jsTrim title).length = 0 ∨ title.length > 200

/-- Option-text condition under which `validatePollCreation` rejects:
whitespace-only or longer than 100. -/
def optionTextInvalid (option : String) : Prop :=
  (jsTrim option).length = 0 ∨ option.length > 100

/-- Exact rejection condition of the create-poll handler. -/
def createPollInvalid (title : String) (options : List String) : Prop :=
  titleInvalid title ∨ options.length < 2 ∨ options.length > 10
  ∨ ∃ o ∈ options, optionTextInvalid o

theorem titleErrors_nil_iff (title : String) :
    titleErrors title = [] ↔ ¬ titleInvalid title := by
  unfold titleErrors titleInvalid
  split_ifs with h1 h2 h3 <;> simp_all

theorem optionItemErrors_nil_iff (options : List String) :
    optionItemErrors options = [] ↔ ∀ o ∈ options, ¬ optionTextInvalid o := by
  unfold optionItemErrors
  rw [List.filterMap_eq_nil_iff]
  apply Iff.of_eq
  apply forall_congr
  intro o
  apply forall_congr
  intro _
  apply propext
  unfold optionTextInvalid
  split_ifs with h1 h2 <;> simp_all

theorem optionsErrors_nil_iff (options : List String) :
    optionsErrors options = []
      ↔ ¬(options.length < 2 ∨ options.length > 10 ∨ ∃ o ∈ options, optionTextInvalid o) := by
  unfold optionsErrors
  split_ifs with h1 h2 <;> push_neg <;> simp_all [optionItemErrors_nil_iff]

/-- C9 counterexample: the claim's "exactly when" fails.  The title `"t"` is
non-empty and the option count 2 lies in [2,10], yet creation is rejected,
because the second option is empty. -/
theorem createPoll_rejects_blank_option :
    ("t" : String) ≠ ""
    ∧ (["a", ""] : List String).length = 2
    ∧ (createPollRoute DataStore.empty ("t") ["a", ""] ("p9") (fun _ => "opt") 0).1.failed
        = true := by
  decide

/-- C9 (amended): `createPoll` fails with the validation error exactly when
the title is invalid (empty, whitespace-only, or over 200 characters), the
option count is outside [2,10], or some option text is invalid
(whitespace-only or over 100 characters); on success it returns a poll in
the active state with one option per requested option, a vote count of zero
and percentage zero for every option, and `totalVotes` zero. -/
theorem createPoll_validation_characterization (s : DataStore) (title : String)
    (options : List String) (pid : String) (gen : Nat → String) (now : Nat) :
    ((createPollRoute s title options pid gen now).1.failed = true
        ↔ createPollInvalid title options)
    ∧ (∀ p, (createPollRoute s title options pid gen now).1 = CreateResult.ok p →
        p.status = "active" ∧ p.totalVotes = 0 ∧ p.options.length = options.length
        ∧ ∀ o ∈ p.options, o.votes = 0 ∧ o.percentage = 0) := by
  have hiff : ((validatePollCreation title options).isValid = false)
      ↔ createPollInvalid title options := by
    unfold validatePollCreation
    rw [Bool.eq_false_iff, Ne, List.isEmpty_iff, List.append_eq_nil]
    rw [titleErrors_nil_iff, optionsErrors_nil_iff]
    unfold createPollInvalid
    rw [not_and_or, not_not, not_not]
  constructor
  · by_cases hv : (validatePollCreation title options).isValid = false
    · simp only [createPollRoute, hv, if_pos]
      simp [CreateResult.failed]
      exact hiff.mp hv
    · rw [Bool.not_eq_false] at hv
      simp only [createPollRoute, hv]
      simp [CreateResult.failed]
      intro hc
      have hfalse := hiff.mpr hc
      rw [hv] at hfalse
      exact Bool.noConfusion hfalse
  · intro p hp
    by_cases hv : (validatePollCreation title options).isValid = false
    · simp [createPollRoute, hv] at hp
    · rw [Bool.not_eq_false] at hv
      simp only [createPollRoute, hv] at hp
      simp only [Bool.true_eq_false, if_false, CreateResult.ok.injEq] at hp
      subst hp
      refine ⟨rfl, rfl, ?_, ?_⟩
      · simp [sanitizePollData, List.enum_length]
      · intro o ho
        rcases List.mem_map.mp ho with ⟨pr, hpr, rfl⟩
        exact ⟨rfl, rfl⟩

/-- C9 amended-claim witness: the valid demo request is accepted and the
resulting poll is active with zeroed tallies; the rejection condition is
characterized for it as well. -/
theorem createPoll_validation_characterization_witness :
    ((createPollRoute DataStore.empty ("Lunch?") ["Sushi", "Ramen"] ("p9")
        (fun _ => "opt") 0).1.failed = true
      ↔ createPollInvalid ("Lunch?") ["Sushi", "Ramen"])
    ∧ (Poll.mk ("p9") ("Lunch?")
        [⟨"opt", "Sushi", 0, 0⟩, ⟨"opt", "Ramen", 0, 0⟩]
        ("active") 0 ("anonymous") 0).status = "active"
    ∧ (Poll.mk ("p9") ("Lunch?")
        [⟨"opt", "Sushi", 0, 0⟩, ⟨"opt", "Ramen", 0, 0⟩]
        ("active") 0 ("anonymous") 0).totalVotes = 0 :=
  have h := createPoll_validation_characterization DataStore.empty ("Lunch?")
    ["Sushi", "Ramen"] ("p9") (fun _ => "opt") 0
  ⟨h.1,
   (h.2 (Poll.mk ("p9") ("Lunch?")
      [⟨"opt", "Sushi", 0, 0⟩, ⟨"opt", "Ramen", 0, 0⟩]
      ("active") 0 ("anonymous") 0) (by decide)).1,
   (h.2 (Poll.mk ("p9") ("Lunch?")
      [⟨"opt", "Sushi", 0, 0⟩, ⟨"opt", "Ramen", 0, 0⟩]
      ("active") 0 ("anonymous") 0) (by decide)).2.1⟩

/-! ### The store invariant is preserved by every route handler

These lemmas justify the `wfState` hypotheses above: the invariant holds for
the empty store and is preserved by the create, vote and end handlers, so it
holds in every reachable store. -/

theorem wfState_empty : wfState DataStore.empty := by
  decide

theorem keys_mapSet (m : List (String × α)) (k : String) (v : α) :
    (mapSet m k v).map Prod.fst
      = if k ∈ m.map Prod.fst then m.map Prod.fst else m.map Prod.fst ++ [k] := by
  induction m with
  | nil => simp [mapSet]
  | cons p rest ih =>
    by_cases hp : p.1 = k
    · simp [mapSet, hp]
    · have hne : ¬ k = p.1 := fun he => hp he.symm
      by_cases hk : k ∈ rest.map Prod.fst <;>
        simp [mapSet, hp, hk, hne, ih]

theorem nodup_keys_mapSet (m : List (String × α)) (k : String) (v : α)
    (hnd : (m.map Prod.fst).Nodup) : ((mapSet m k v).map Prod.fst).Nodup := by
  rw [keys_mapSet]
  split_ifs with h
  · exact hnd
  · refine List.Nodup.append hnd (List.nodup_singleton k) ?_
    intro a ha hb
    rw [List.mem_singleton] at hb
    subst hb
    exact h ha

theorem mem_mapSet_of_nodup (m : List (String × α)) (k : String) (v : α)
    (hnd : (m.map Prod.fst).Nodup) (p : String × α) (hp : p ∈ mapSet m k v) :
    p = (k, v) ∨ (p ∈ m ∧ p.1 ≠ k) := by
  induction m with
  | nil =>
    rw [mapSet, List.mem_singleton] at hp
    exact Or.inl hp
  | cons q rest ih =>
    rw [List.map_cons, List.nodup_cons] at hnd
    by_cases hq : q.1 = k
    · rw [show mapSet (q :: rest) k v = (k, v) :: rest from by
        cases q
        simp [mapSet] at hq ⊢
        simp [hq]] at hp
      rcases List.mem_cons.mp hp with h1 | h2
      · exact Or.inl h1
      · refine Or.inr ⟨List.mem_cons_of_mem _ h2, ?_⟩
        intro he
        apply hnd.1
        rw [hq, ← he]
        exact List.mem_map.mpr ⟨p, h2, rfl⟩
    · rw [show mapSet (q :: rest) k v = q :: mapSet rest k v from by
        cases q
        simp [mapSet] at hq ⊢
        simp [hq]] at hp
      rcases List.mem_cons.mp hp with h1 | h2
      · refine Or.inr ⟨?_, ?_⟩
        · rw [h1]; exact List.mem_cons_self _ _
        · rw [h1]; exact hq
      · rcases ih hnd.2 h2 with h3 | h3
        · exact Or.inl h3
        · exact Or.inr ⟨List.mem_cons_of_mem _ h3.1, h3.2⟩

theorem addVote_success_preserves_wf (s s2 : DataStore) (vote : Vote) (poll : Poll)
    (hwf : wfState s)
    (hpoll : mapGet s.polls vote.pollId = some poll)
    (hoptid : vote.optionId ∈ poll.options.map PollOption.id)
    (hnv : vote.voterId ∉ DataStore.votersOf s vote.pollId)
    (hs2 : s2 = { s with
        votes := mapSet s.votes vote.pollId (DataStore.getVotes s vote.pollId ++ [vote])
        pollVoters := mapSet s.pollVoters vote.pollId
          (DataStore.votersOf s vote.pollId ++ [vote.voterId]) }) :
    wfState s2 := by
  obtain ⟨hkeys, hentries⟩ := hwf
  have hpolls2 : s2.polls = s.polls := by rw [hs2]
  have hv2 : ∀ k, DataStore.getVotes s2 k
      = if k = vote.pollId then DataStore.getVotes s vote.pollId ++ [vote]
        else DataStore.getVotes s k := by
    intro k
    by_cases hk : k = vote.pollId
    · rw [if_pos hk, hk, hs2]
      unfold DataStore.getVotes
      show (mapGet (mapSet s.votes vote.pollId _) vote.pollId).getD [] = _
      rw [mapGet_mapSet_self]
      rfl
    · rw [if_neg hk, hs2]
      unfold DataStore.getVotes
      show (mapGet (mapSet s.votes vote.pollId _) k).getD [] = _
      rw [mapGet_mapSet_ne _ _ _ _ hk]
  have hvo2 : ∀ k, DataStore.votersOf s2 k
      = if k = vote.pollId then DataStore.votersOf s vote.pollId ++ [vote.voterId]
        else DataStore.votersOf s k := by
    intro k
    by_cases hk : k = vote.pollId
    · rw [if_pos hk, hk, hs2]
      unfold DataStore.votersOf
      show (mapGet (mapSet s.pollVoters vote.pollId _) vote.pollId).getD [] = _
      rw [mapGet_mapSet_self]
      rfl
    · rw [if_neg hk, hs2]
      unfold DataStore.votersOf
      show (mapGet (mapSet s.pollVoters vote.pollId _) k).getD [] = _
      rw [mapGet_mapSet_ne _ _ _ _ hk]
  refine ⟨by rw [hpolls2]; exact hkeys, ?_⟩
  intro p hp
  rw [hpolls2] at hp
  have hold := hentries p hp
  unfold wfPollEntry at hold ⊢
  by_cases hk : p.1 = vote.pollId
  · rw [hk] at hold ⊢
    rw [hv2, hvo2, if_pos rfl, if_pos rfl]
    have hpq : mapGet s.polls vote.pollId = some p.2 := by
      have hm := mapGet_of_mem_of_nodup _ _ _ hkeys hp
      rw [hk] at hm
      exact hm
    rw [hpoll] at hpq
    have hq : poll = p.2 := Option.some.inj hpq
    refine ⟨hold.1, ?_, ?_, ?_, ?_⟩
    · intro v hv
      rcases List.mem_append.mp hv with h1 | h1
      · exact hold.2.1 v h1
      · rw [List.mem_singleton] at h1
        subst h1
        rw [← hq]
        exact hoptid
    · intro v hv
      rcases List.mem_append.mp hv with h1 | h1
      · exact hold.2.2.1 v h1
      · rw [List.mem_singleton] at h1
        subst h1
        rfl
    · rw [List.map_append]
      refine List.Nodup.append hold.2.2.2.1 (List.nodup_singleton _) ?_
      intro a ha hb
      rw [List.map_singleton, List.mem_singleton] at hb
      subst hb
      rcases List.mem_map.mp ha with ⟨v, hv, hva⟩
      apply hnv
      rw [← hva]
      exact hold.2.2.2.2 v hv
    · intro v hv
      rcases List.mem_append.mp hv with h1 | h1
      · exact List.mem_append_left _ (hold.2.2.2.2 v h1)
      · rw [List.mem_singleton] at h1
        subst h1
        exact List.mem_append_right _ (List.mem_singleton_self _)
  · rw [hv2, hvo2, if_neg hk, if_neg hk]
    exact hold

/-- The vote handler preserves the store invariant on every path. -/
theorem wf_preserved_castVote (s : DataStore) (pid oid vid voteId : String)
    (now : Nat) (hwf : wfState s) :
    wfState (castVoteRoute s pid oid vid voteId now).2.1 := by
  by_cases hval : (validateVote oid vid).isValid = false
  · simp only [castVoteRoute, hval, if_true, ite_true, if_pos]
    exact hwf
  · have hval' : (validateVote oid vid).isValid = true := by
      revert hval
      cases (validateVote oid vid).isValid <;> simp
    cases hpoll : DataStore.getPoll s pid with
    | none =>
      simp only [castVoteRoute, hval', hpoll]
      simp
      exact hwf
    | some poll =>
      by_cases hstat : poll.status = "active"
      · cases hfind : poll.options.find? (fun opt => opt.id = oid) with
        | none =>
          simp only [castVoteRoute, hval', hpoll, hstat, hfind]
          simp
          exact hwf
        | some opt =>
          by_cases hnv : DataStore.hasVoted s pid vid = true
          · simp only [castVoteRoute, hval', hpoll, hstat, hfind, hnv]
            simp
            exact hwf
          · have hvoters : vid ∉ DataStore.votersOf s pid := by
              simpa [DataStore.hasVoted] using hnv
            have haddv : DataStore.addVote s ⟨voteId, pid, oid, vid, now⟩
                = (true, { s with
                    votes := mapSet s.votes pid
                      (DataStore.getVotes s pid ++ [⟨voteId, pid, oid, vid, now⟩])
                    pollVoters := mapSet s.pollVoters pid
                      (DataStore.votersOf s pid ++ [vid]) }) := by
              unfold DataStore.addVote
              rw [show mapGet s.polls pid = some poll from hpoll]
              simp [hvoters]
            have hoid : opt.id = oid := by
              have hpred := List.find?_some hfind
              simpa using hpred
            have hoptid : oid ∈ poll.options.map PollOption.id :=
              List.mem_map.mpr ⟨opt, List.mem_of_find?_eq_some hfind, hoid⟩
            simp only [castVoteRoute, hval', hpoll, hstat, hfind, hnv, haddv]
            simp only [Bool.true_eq_false, if_false, ite_false]
            cases hres : DataStore.getPollWithResults
                { s with
                  votes := mapSet s.votes pid
                    (DataStore.getVotes s pid ++ [⟨voteId, pid, oid, vid, now⟩])
                  pollVoters := mapSet s.pollVoters pid
                    (DataStore.votersOf s pid ++ [vid]) } pid <;>
              simp [hres] <;>
              exact addVote_success_preserves_wf s _ ⟨voteId, pid, oid, vid, now⟩ poll
                ⟨hwf.1, hwf.2⟩ hpoll hoptid hvoters rfl
      · simp only [castVoteRoute, hval', hpoll]
        simp [hstat]
        exact hwf

/-- The end-poll handler preserves the store invariant on every path (the
status flip does not touch the options, the vote logs, or the dedup sets). -/
theorem wf_preserved_endPoll (s : DataStore) (pid : String) (req : Option String)
    (hwf : wfState s) : wfState (endPollRoute s pid req).2.1 := by
  cases hpoll : DataStore.getPoll s pid with
  | none =>
    simp only [endPollRoute, hpoll]
    exact hwf
  | some poll =>
    cases hauth : endAuthFails poll req with
    | true =>
      simp only [endPollRoute, hpoll, hauth]
      simp
      exact hwf
    | false =>
      have hupd : DataStore.updatePoll s pid (fun p => { p with status := "ended" })
          = some ({ poll with status := "ended" },
              { s with polls := mapSet s.polls pid { poll with status := "ended" } }) := by
        unfold DataStore.updatePoll
        rw [show mapGet s.polls pid = some poll from hpoll]
      simp only [endPollRoute, hpoll, hauth, hupd]
      simp
      obtain ⟨hkeys, hentries⟩ := hwf
      refine ⟨nodup_keys_mapSet _ _ _ hkeys, ?_⟩
      intro p hp
      rcases mem_mapSet_of_nodup _ _ _ hkeys p hp with h1 | h2
      · have holde := hentries (pid, poll) (mem_of_mapGet _ _ _ hpoll)
        rw [h1]
        exact holde
      · exact hentries p h2.1

/-- The create-poll handler preserves the store invariant, provided the
generated option ids for the new poll are pairwise distinct (the code draws
them from `generateOptionId`, whose outputs are assumed unique). -/
theorem wf_preserved_createPoll (s : DataStore) (title : String) (options : List String)
    (pid : String) (gen : Nat → String) (now : Nat)
    (hgen : ((List.range options.length).map gen).Nodup)
    (hwf : wfState s) : wfState (createPollRoute s title options pid gen now).2 := by
  by_cases hval : (validatePollCreation title options).isValid = false
  · simp only [createPollRoute, hval, ite_true, if_pos]
    exact hwf
  · have hval' : (validatePollCreation title options).isValid = true := by
      revert hval
      cases (validatePollCreation title options).isValid <;> simp
    simp only [createPollRoute, hval']
    simp only [Bool.true_eq_false, if_false, ite_false]
    unfold DataStore.createPoll
    obtain ⟨hkeys, hentries⟩ := hwf
    refine ⟨nodup_keys_mapSet _ _ _ hkeys, ?_⟩
    intro p hp
    have hvotes0 : ∀ k (m : List (String × List Vote)),
        (mapGet (mapSet m k []) k).getD [] = ([] : List Vote) := by
      intro k m
      rw [mapGet_mapSet_self]
      rfl
    rcases mem_mapSet_of_nodup _ _ _ hkeys p hp with h1 | h2
    · rw [h1]
      unfold wfPollEntry
      have hids : (((sanitizePollData title options).2.enum.map
            fun q => (⟨gen q.1, q.2, 0, 0⟩ : PollOption)).map PollOption.id)
          = (List.range options.length).map gen := by
        rw [List.map_map]
        have hcomp : (PollOption.id ∘ fun q : Nat × String => (⟨gen q.1, q.2, 0, 0⟩ : PollOption))
            = gen ∘ Prod.fst := rfl
        rw [hcomp, ← List.map_map, List.enum_map_fst]
        have hlen : (sanitizePollData title options).2.length = options.length := by
          unfold sanitizePollData
          simp
        rw [hlen]
      refine ⟨?_, ?_, ?_, ?_, ?_⟩
      · rw [hids]
        exact hgen
      · intro v hv
        rw [show DataStore.getVotes
            { polls := mapSet s.polls pid _, votes := mapSet s.votes pid [],
              pollVoters := mapSet s.pollVoters pid [] } pid = [] from hvotes0 pid s.votes] at hv
        exact absurd hv (List.not_mem_nil v)
      · intro v hv
        rw [show DataStore.getVotes
            { polls := mapSet s.polls pid _, votes := mapSet s.votes pid [],
              pollVoters := mapSet s.pollVoters pid [] } pid = [] from hvotes0 pid s.votes] at hv
        exact absurd hv (List.not_mem_nil v)
      · rw [show DataStore.getVotes
            { polls := mapSet s.polls pid _, votes := mapSet s.votes pid [],
              pollVoters := mapSet s.pollVoters pid [] } pid = [] from hvotes0 pid s.votes]
        exact List.nodup_nil
      · intro v hv
        rw [show DataStore.getVotes
            { polls := mapSet s.polls pid _, votes := mapSet s.votes pid [],
              pollVoters := mapSet s.pollVoters pid [] } pid = [] from hvotes0 pid s.votes] at hv
        exact absurd hv (List.not_mem_nil v)
    · have hv : ∀ k, k ≠ pid → DataStore.getVotes
          { polls := mapSet s.polls pid (Poll.mk pid (sanitizePollData title options).1
              ((sanitizePollData title options).2.enum.map fun q => ⟨gen q.1, q.2, 0, 0⟩)
              ("active") now ("anonymous") 0),
            votes := mapSet s.votes pid [],
            pollVoters := mapSet s.pollVoters pid [] } k = DataStore.getVotes s k := by
        intro k hk
        unfold DataStore.getVotes
        show (mapGet (mapSet s.votes pid []) k).getD [] = _
        rw [mapGet_mapSet_ne _ _ _ _ hk]
      have hvo : ∀ k, k ≠ pid → DataStore.votersOf
          { polls := mapSet s.polls pid (Poll.mk pid (sanitizePollData title options).1
              ((sanitizePollData title options).2.enum.map fun q => ⟨gen q.1, q.2, 0, 0⟩)
              ("active") now ("anonymous") 0),
            votes := mapSet s.votes pid [],
            pollVoters := mapSet s.pollVoters pid [] } k = DataStore.votersOf s k := by
        intro k hk
        unfold DataStore.votersOf
        show (mapGet (mapSet s.pollVoters pid []) k).getD [] = _
        rw [mapGet_mapSet_ne _ _ _ _ hk]
      have holde := hentries p h2.1
      unfold wfPollEntry at holde ⊢
      rw [hv p.1 h2.2, hvo p.1 h2.2]
      exact holde
